import Mathlib

/-! Shallow embedding of the mosaic_utils cropping pipeline
(src/mosaic_utils/crop_mosaic.py) together with proofs of the
specification claims about it.

The pipeline's own control flow and arithmetic are translated directly
from the Python source.  The external collaborators (shapely / GEOS
geometry engine, pyproj coordinate transforms, the vectorizer) are
represented by an explicit operations record `GeomOps`; every repository
function is parametric in that record, exactly as the Python code is
parametric in the libraries it imports.  Machine floats are modelled by
exact rationals. -/

namespace MosaicUtils

/-- Python exception values raised or propagated in crop_mosaic.py. -/
inductive PyErr where
  | runtimeError (msg : String)
  | typeError (msg : String)
  | valueError (msg : String)
  | calledProcessError
deriving DecidableEq, Repr

/-- rasterio.windows.Window: a rectangular sub-region of the raster grid. -/
structure Window where
  colOff : Nat
  rowOff : Nat
  width : Nat
  height : Nat
deriving DecidableEq, Repr

/-- Python range(0, stop, step) for a positive step. -/
def pyRange (stop step : Nat) : List Nat :=
  (List.range ((stop + step - 1) / step)).map (fun k => k * step)

/-- The tile windows built by raster_to_polygon_parallel
(crop_mosaic.py lines 266-275): nested loops over
range(0, height, block_size) and range(0, width, block_size), each
window clipped with min(block_size, dim - offset). -/
def tileWindows (width height blockSize : Nat) : List Window :=
  (pyRange height blockSize).flatMap fun y =>
    (pyRange width blockSize).map fun x =>
      { colOff := x, rowOff := y,
        width := min blockSize (width - x),
        height := min blockSize (height - y) }

/-- Pixel (i, j) of the raster grid lies inside window w. -/
def Window.containsPx (w : Window) (i j : Nat) : Bool :=
  decide (w.colOff ≤ i) && decide (i < w.colOff + w.width) &&
  decide (w.rowOff ≤ j) && decide (j < w.rowOff + w.height)

/-- Resolved coordinate reference systems as pyproj exposes them to this
code: the only facts crop_mosaic.py uses are identity of the CRS and its
geographic / projected character, plus the UTM constructor from a proj4
string. -/
inductive CRSid where
  | geographic (code : String)
  | projected (code : String)
  | utm (zone : Int)
deriving DecidableEq, Repr

/-- CRS.is_geographic of pyproj: true exactly for geographic CRSs. -/
def CRSid.isGeographic : CRSid → Bool
  | .geographic _ => true
  | _ => false

/-- Shapely geometry values as crop_mosaic.py discriminates them with
isinstance: a single Polygon, a MultiPolygon with its component list, or
any other geometry type (Point, LineString, GeometryCollection, ...).
`P` is the carrier of single-polygon payloads. -/
inductive Geom (P : Type) where
  | poly (p : P)
  | multi (parts : List P)
  | other (typeName : String)
deriving DecidableEq, Repr

/-- Operations supplied by the external geometry / transform / raster
collaborators (shapely, pyproj, rasterio.features.shapes).  crop_mosaic.py
uses exactly these methods. -/
structure GeomOps (P : Type) where
  /-- Polygon.area -/
  areaP : P → ℚ
  /-- BaseGeometry.is_valid -/
  isValid : Geom P → Bool
  /-- BaseGeometry.is_empty -/
  isEmptyG : Geom P → Bool
  /-- BaseGeometry.buffer(dist, resolution, single_sided) -/
  buffer : Geom P → ℚ → Nat → Bool → Geom P
  /-- BaseGeometry.buffer(0), the zero-width repair buffer with default
  keyword arguments -/
  buffer0 : Geom P → Geom P
  /-- shapely.ops.unary_union, which may raise a geometry-engine
  exception -/
  unaryUnion : List (Geom P) → Except PyErr (Geom P)
  /-- BaseGeometry.convex_hull -/
  convexHull : Geom P → Geom P
  /-- BaseGeometry.centroid coordinates (x, y) -/
  centroid : Geom P → ℚ × ℚ
  /-- pyproj Transformer.from_crs(src, dst, always_xy=True) applied
  through shapely.ops.transform -/
  transform : CRSid → CRSid → Geom P → Geom P
  /-- rasterio.features.shapes over a window's binary mask with the
  window transform: a list of (geometry, mask value) pairs -/
  vectorize : Window → (Nat → Nat → Bool) → List (P × Nat)

/-- BaseGeometry.area: the area of a MultiPolygon is the sum of its
parts, geometry types without areal extent report 0. -/
def geomArea {P : Type} (ops : GeomOps P) : Geom P → ℚ
  | .poly p => ops.areaP p
  | .multi ps => (ps.map ops.areaP).sum
  | .other _ => 0

/-- ensure_valid_geometry (crop_mosaic.py lines 141-176): a valid
positive-area Polygon is returned unchanged, any other Polygon is
repaired with buffer(0); a MultiPolygon is cleaned of zero-area parts
and unioned, raising RuntimeError when nothing remains; every other
geometry type raises TypeError. -/
def ensure_valid_geometry {P : Type} (ops : GeomOps P) : Geom P → Except PyErr (Geom P)
  | .poly p =>
      if ops.isValid (.poly p) && decide (0 < ops.areaP p) then .ok (.poly p)
      else .ok (ops.buffer0 (.poly p))
  | .multi ps =>
      let polys := ps.filter fun q => decide (0 < ops.areaP q)
      if polys.isEmpty then
        .error (.runtimeError "All polygons have zero area after cleanup.")
      else ops.unaryUnion (polys.map Geom.poly)
  | .other t => .error (.typeError ("Unsupported geometry type: " ++ t))

/-- largest_polygon (crop_mosaic.py lines 179-193): for a MultiPolygon,
Python max(geoms, key=area) returns the first component of maximal area
(raising ValueError on an empty sequence); any other geometry is
returned unchanged. -/
def largest_polygon {P : Type} (ops : GeomOps P) : Geom P → Except PyErr (Geom P)
  | .multi [] => .error (.valueError "max() arg is an empty sequence")
  | .multi (q :: qs) =>
      .ok (.poly (qs.foldl (fun best r => if ops.areaP best < ops.areaP r then r else best) q))
  | g => .ok g

/-- reproject_geom (crop_mosaic.py lines 111-138): ValueError on a None
source CRS, identity when source and destination CRS are equal,
otherwise the pyproj transform. -/
def reproject_geom {P : Type} (ops : GeomOps P) (g : Geom P) :
    Option CRSid → CRSid → Except PyErr (Geom P)
  | none, _ => .error (.valueError "source CRS is None, cannot reproject geometry")
  | some src, dst => if src = dst then .ok g else .ok (ops.transform src dst g)

/-- Python int() applied to a rational value: truncation toward zero. -/
def pyInt (q : ℚ) : Int := if q < 0 then ⌈q⌉ else ⌊q⌋

/-- The UTM zone computed in compute_negative_buffer (line 346):
int((lon + 180) / 6) + 1. -/
def utm_zone_from_lon (lon : ℚ) : Int := pyInt ((lon + 180) / 6) + 1

/-- Metric CRS selection of compute_negative_buffer (lines 341-350):
a local UTM zone from the centroid longitude when the source CRS is
geographic, the source CRS itself when it is already projected. -/
def metric_crs_for {P : Type} (ops : GeomOps P) (g : Geom P) (src : CRSid) : CRSid :=
  if src.isGeographic then .utm (utm_zone_from_lon (ops.centroid g).1) else src

/-- The buffer distance of compute_negative_buffer (line 358):
dist = (area * threshold_area) / 100. -/
def buffer_distance {P : Type} (ops : GeomOps P) (gMetric : Geom P) (threshold : ℚ) : ℚ :=
  geomArea ops gMetric * threshold / 100

/-- compute_negative_buffer (crop_mosaic.py lines 316-370): choose a
metric CRS, reproject into it, buffer by minus (area * threshold) / 100
with resolution 8 and the default non-single-sided offset, reproject
back and repair with ensure_valid_geometry. -/
def compute_negative_buffer {P : Type} (ops : GeomOps P) (g : Geom P)
    (threshold : ℚ) (geomCrs : CRSid) : Except PyErr (Geom P) :=
  (reproject_geom ops g (some geomCrs) (metric_crs_for ops g geomCrs)).bind fun gMetric =>
    (reproject_geom ops
        (ops.buffer gMetric (-(buffer_distance ops gMetric threshold)) 8 false)
        (some (metric_crs_for ops g geomCrs)) geomCrs).bind fun back =>
      ensure_valid_geometry ops back

/-- The metric buffer calculation as the specification words it
(spec sections 4.3): reproject the region into the metric CRS, let area
be its area there, compute dist = (area * threshold) / 100, apply a
negative buffer of that distance with resolution 8 segments per
quarter-circle and default non-single-sided offsetting, reproject the
result back into the original CRS, and repair it with the validity
logic. -/
def spec_metric_buffer {P : Type} (ops : GeomOps P) (region : Geom P)
    (threshold : ℚ) (srcCrs : CRSid) : Except PyErr (Geom P) :=
  let metricCrs := metric_crs_for ops region srcCrs
  (reproject_geom ops region (some srcCrs) metricCrs).bind fun regionMetric =>
    let area := geomArea ops regionMetric
    let dist := area * threshold / 100
    let buffered := ops.buffer regionMetric (-dist) 8 false
    (reproject_geom ops buffered (some metricCrs) srcCrs).bind fun back =>
      ensure_valid_geometry ops back

/-- fast_convex_hull (crop_mosaic.py lines 373-390). -/
def fast_convex_hull {P : Type} (ops : GeomOps P) (g : Geom P) : Except PyErr (Geom P) :=
  ensure_valid_geometry ops (ops.convexHull g)

/-- The raster metadata and alpha band contents the extraction stage
reads: width, height, CRS and the band-4 pixel values. -/
structure RasterMeta where
  width : Nat
  height : Nat
  crs : CRSid
  alpha : Nat → Nat → Nat

/-- np.any over the alpha values of one window (line 220). -/
def npAnyWindow (alpha : Nat → Nat → Nat) (w : Window) : Bool :=
  (List.range w.height).any fun r =>
    (List.range w.width).any fun c =>
      decide (alpha (w.colOff + c) (w.rowOff + r) ≠ 0)

/-- The worker _shapes_from_tile_alpha (crop_mosaic.py lines 196-231): a tile whose
alpha values are all zero short-circuits to the empty list; otherwise the
binary mask alpha > 0 is vectorized and the shapes with mask value 1 are
kept. -/
def shapes_from_tile_alpha {P : Type} (ops : GeomOps P) (alpha : Nat → Nat → Nat)
    (w : Window) : List (Geom P) :=
  if npAnyWindow alpha w then
    ((ops.vectorize w fun c r => decide (0 < alpha (w.colOff + c) (w.rowOff + r))).filter
      (fun pv => pv.2 == 1)).map fun pv => Geom.poly pv.1
  else []

/-- Geometry types accepted by the cleaning loop's isinstance check:
Polygon or MultiPolygon. -/
def isPolygonal {P : Type} : Geom P → Bool
  | .other _ => false
  | _ => true

/-- Whether a geometry is a MultiPolygon. -/
def isMultiG {P : Type} : Geom P → Bool
  | .multi _ => true
  | _ => false

/-- One iteration of the cleaning loop of raster_to_polygon_parallel
(crop_mosaic.py lines 292-299): drop empty or zero-area entries, repair
invalid ones with buffer(0), keep only non-empty Polygon/MultiPolygon
results. -/
def cleanOne {P : Type} (ops : GeomOps P) (p : Geom P) : Option (Geom P) :=
  if ops.isEmptyG p || decide (geomArea ops p = 0) then none
  else
    let q := if ops.isValid p then p else ops.buffer0 p
    if isPolygonal q && !ops.isEmptyG q then some q else none

/-- The cleaned polygon list accumulated by the loop. -/
def cleanPolys {P : Type} (ops : GeomOps P) (polys : List (Geom P)) : List (Geom P) :=
  polys.filterMap (cleanOne ops)

/-- The merge step of raster_to_polygon_parallel (crop_mosaic.py lines
305-310): try unary_union on the cleaned list; if it raises, retry once
on the list with every geometry repaired by buffer(0). -/
def mergeCleaned {P : Type} (ops : GeomOps P) (cleaned : List (Geom P)) :
    Except PyErr (Geom P) :=
  match ops.unaryUnion cleaned with
  | .ok merged => .ok merged
  | .error _ => ops.unaryUnion (cleaned.map ops.buffer0)

/-- The concatenation of all per-tile extraction results (lines 281-285;
imap_unordered returns them in arbitrary order and `if result:` only
skips empty lists, so the multiset of polygons is this flattening). -/
def extracted_polys {P : Type} (ops : GeomOps P) (meta : RasterMeta)
    (blockSize : Nat) : List (Geom P) :=
  ((tileWindows meta.width meta.height blockSize).map
    (shapes_from_tile_alpha ops meta.alpha)).flatten

/-- raster_to_polygon_parallel (crop_mosaic.py lines 235-313): extract
per-tile polygons, fail if none were found, clean the list, fail if
nothing survives, and merge with the retrying union. -/
def raster_to_polygon_parallel {P : Type} (ops : GeomOps P) (meta : RasterMeta)
    (blockSize : Nat) : Except PyErr (Geom P) :=
  let polys := extracted_polys ops meta blockSize
  if polys.isEmpty then
    .error (.runtimeError "No polygons extracted from raster (alpha mask may be empty).")
  else
    let cleaned := cleanPolys ops polys
    if cleaned.isEmpty then
      .error (.runtimeError "Polygon list empty after cleaning.")
    else mergeCleaned ops cleaned

/-- The fixed geographic CRS used for the cutline. -/
def EPSG4326 : CRSid := .geographic "EPSG:4326"

/-- geom_to_geojson_path (crop_mosaic.py lines 395-438): reproject the
geometry to EPSG:4326, repair it, reduce a MultiPolygon to its largest
component, and serialize the result as the single feature of the
temporary GeoJSON cutline file.  The value returned here is the geometry
written into that single feature. -/
def geom_to_geojson_path {P : Type} (ops : GeomOps P) (g : Geom P)
    (geomCrs : CRSid) : Except PyErr (Geom P) :=
  (reproject_geom ops g (some geomCrs) EPSG4326).bind fun g1 =>
    (ensure_valid_geometry ops g1).bind fun g2 =>
      if isMultiG g2 then largest_polygon ops g2 else .ok g2

/-- Filesystem facts observable after a crop attempt: whether the
temporary cutline file is still present and whether the output raster
was produced. -/
structure FSState where
  cutlinePresent : Bool
  outputPresent : Bool
deriving DecidableEq, Repr

/-- Outcome of the two external warp backends: whether gdal.Warp
succeeds, and whether the gdalwarp CLI fallback succeeds. -/
structure WarpEnv where
  warpOk : Bool
  cliOk : Bool
deriving DecidableEq, Repr

/-- crop_with_mask (crop_mosaic.py lines 441-506): write the cutline,
try gdal.Warp, on exception fall back to the gdalwarp CLI via
subprocess.run(check=True); only after the try/except block does
os.remove delete the cutline, so when both backends fail the
CalledProcessError propagates first and the cutline file survives. -/
def crop_with_mask {P : Type} (ops : GeomOps P) (env : WarpEnv) (g : Geom P)
    (geomCrs : CRSid) : Except PyErr Unit × FSState :=
  match geom_to_geojson_path ops g geomCrs with
  | .error e => (.error e, { cutlinePresent := false, outputPresent := false })
  | .ok _ =>
    if env.warpOk then
      (.ok (), { cutlinePresent := false, outputPresent := true })
    else if env.cliOk then
      (.ok (), { cutlinePresent := false, outputPresent := true })
    else
      (.error .calledProcessError, { cutlinePresent := true, outputPresent := false })

/-- The geometry stages of crop_mosaic_by_polygon (lines 511-553):
extraction, negative buffer, convex hull, final validation. -/
def pipeline_geometry {P : Type} (ops : GeomOps P) (meta : RasterMeta)
    (threshold : ℚ) : Except PyErr (Geom P) :=
  (raster_to_polygon_parallel ops meta 2048).bind fun geom =>
    (compute_negative_buffer ops geom threshold meta.crs).bind fun nb =>
      (fast_convex_hull ops nb).bind fun hull =>
        ensure_valid_geometry ops hull

/-- crop_mosaic_by_polygon: the full pipeline; a failing geometry stage
aborts before any file is produced. -/
def crop_mosaic_by_polygon {P : Type} (ops : GeomOps P) (meta : RasterMeta)
    (env : WarpEnv) (threshold : ℚ) : Except PyErr Unit × FSState :=
  match pipeline_geometry ops meta threshold with
  | .error e => (.error e, { cutlinePresent := false, outputPresent := false })
  | .ok hull => crop_with_mask ops env hull meta.crs

/-- num_workers (crop_mosaic.py line 45):
int(cpu_count() - (cpu_count() * 0.20)), modelled with the exact
rational 0.20. -/
def num_workers (cpuCount : Nat) : Int :=
  pyInt ((cpuCount : ℚ) - (cpuCount : ℚ) * (20 / 100))

/-! A concrete instance of the geometry collaborator: axis-aligned
rectangles with exact rational coordinates.  Negative buffering
(erosion) of a rectangle is again a rectangle, so this instance realizes
the engine contract exactly and is used to instantiate the parametric
theorems at concrete inputs. -/

/-- An axis-aligned rectangle; degenerate when x1 ≤ x0 or y1 ≤ y0. -/
structure Rect where
  x0 : ℚ
  y0 : ℚ
  x1 : ℚ
  y1 : ℚ
deriving DecidableEq, Repr

/-- Area of a rectangle (0 when degenerate). -/
def Rect.area (r : Rect) : ℚ := max 0 (r.x1 - r.x0) * max 0 (r.y1 - r.y0)

/-- Offsetting a rectangle by a buffer distance: a negative distance
shrinks it inward on every side. -/
def Rect.offset (r : Rect) (dist : ℚ) : Rect :=
  ⟨r.x0 - dist, r.y0 - dist, r.x1 + dist, r.y1 + dist⟩

/-- Centroid of a rectangle. -/
def Rect.centroidPt (r : Rect) : ℚ × ℚ := ((r.x0 + r.x1) / 2, (r.y0 + r.y1) / 2)

/-- Map a rectangle transformation over a geometry. -/
def geomMapRect (f : Rect → Rect) : Geom Rect → Geom Rect
  | .poly r => .poly (f r)
  | .multi rs => .multi (rs.map f)
  | .other t => .other t

/-- The polygonal components of a rectangle geometry. -/
def geomRectParts : Geom Rect → List Rect
  | .poly r => [r]
  | .multi rs => rs
  | .other _ => []

/-- The rectangle realization of the geometry collaborator. -/
def rectOps : GeomOps Rect where
  areaP := Rect.area
  isValid g := match g with | .other _ => false | _ => true
  isEmptyG g := match g with
    | .poly r => decide (r.area = 0)
    | .multi rs => rs.isEmpty
    | .other _ => true
  buffer g dist _resolution _singleSided := geomMapRect (fun r => r.offset dist) g
  buffer0 g := match g with | .other _ => .poly ⟨0, 0, 0, 0⟩ | g => g
  unaryUnion gs := .ok (.multi (gs.flatMap geomRectParts))
  convexHull g := g
  centroid g := match g with
    | .poly r => r.centroidPt
    | .multi (r :: _) => r.centroidPt
    | _ => (0, 0)
  transform _ _ g := g
  vectorize _ _ := []

/-- A variant of the rectangle engine whose union raises a
TopologyException on purely polygonal input and succeeds once the
buffer(0) repair pass has been applied; it exercises the retry path of
the merge step. -/
def flakyOps : GeomOps Rect :=
  { rectOps with
    buffer0 := fun _ => .other "repaired"
    unaryUnion := fun gs =>
      if gs.any (fun g => !isPolygonal g) then .ok (.other "union-after-repair")
      else .error (.runtimeError "TopologyException") }

/-! Lemmas about the tile partition. -/

lemma lt_ceilDiv_iff {step : Nat} (h : 0 < step) (k stop : Nat) :
    k < (stop + step - 1) / step ↔ k * step < stop := by
  rw [Nat.lt_iff_add_one_le, Nat.le_div_iff_mul_le h, add_one_mul]
  generalize k * step = a
  omega

lemma mem_pyRange {stop step : Nat} (h : 0 < step) {x : Nat} :
    x ∈ pyRange stop step ↔ ∃ k, x = k * step ∧ x < stop := by
  unfold pyRange
  simp only [List.mem_map, List.mem_range]
  constructor
  · rintro ⟨k, hk, rfl⟩
    exact ⟨k, rfl, (lt_ceilDiv_iff h k stop).1 hk⟩
  · rintro ⟨k, rfl, hx⟩
    exact ⟨k, (lt_ceilDiv_iff h k stop).2 hx, rfl⟩

lemma cell_iff {bs W i a : Nat} (hbs : 0 < bs) (hi : i < W) :
    (a * bs ≤ i ∧ i < a * bs + min bs (W - a * bs)) ↔ a = i / bs := by
  have hmod : bs * (i / bs) + i % bs = i := Nat.div_add_mod i bs
  have hmlt : i % bs < bs := Nat.mod_lt i hbs
  constructor
  · rintro ⟨h1, h2⟩
    have h3 : i < a * bs + bs :=
      lt_of_lt_of_le h2 (Nat.add_le_add_left (Nat.min_le_left _ _) _)
    exact (Nat.div_eq_of_lt_le h1 (by rw [add_one_mul]; exact h3)).symm
  · rintro rfl
    have hle : i / bs * bs ≤ i := Nat.div_mul_le_self i bs
    refine ⟨hle, ?_⟩
    have hmod2 : i / bs * bs + i % bs = i := by rw [Nat.mul_comm] at hmod; exact hmod
    rcases le_or_lt bs (W - i / bs * bs) with hmin | hmin
    · rw [min_eq_left hmin]
      generalize i / bs * bs = m at hmod2 ⊢
      omega
    · rw [min_eq_right hmin.le]
      generalize i / bs * bs = m at hle ⊢
      omega

lemma countP_range_eq_one {n a : Nat} (h : a < n) :
    (List.range n).countP (fun b => decide (b = a)) = 1 := by
  induction n with
  | zero => omega
  | succ n ih =>
    rw [List.range_succ, List.countP_append, List.countP_singleton]
    rcases Nat.lt_succ_iff_lt_or_eq.1 h with h1 | rfl
    · have hne : ¬ (n = a) := by omega
      rw [ih h1]
      simp [hne]
    · have h0 : (List.range a).countP (fun b => decide (b = a)) = 0 := by
        rw [List.countP_eq_zero]
        intro b hb
        simp only [List.mem_range] at hb
        simp only [decide_eq_true_eq]
        omega
      rw [h0]
      simp

lemma map_flatMap' {α β γ : Type} (l : List α) (f : α → β) (g : β → List γ) :
    (l.map f).flatMap g = l.flatMap fun a => g (f a) := by
  induction l with
  | nil => rfl
  | cons a l ih => simp only [List.map_cons, List.flatMap_cons, ih]

lemma countP_flatMap' {α β : Type} (l : List α) (g : α → List β) (p : β → Bool) :
    (l.flatMap g).countP p = (l.map fun a => (g a).countP p).sum := by
  rw [show l.flatMap g = (l.map g).flatten from rfl, List.countP_flatten, List.map_map]
  rfl

lemma sum_map_ite_eq (l : List Nat) (a0 : Nat) :
    (l.map fun b => if b = a0 then 1 else 0).sum = l.countP fun b => decide (b = a0) := by
  induction l with
  | nil => rfl
  | cons a l ih =>
    rw [List.map_cons, List.sum_cons, ih, List.countP_cons, Nat.add_comm]
    congr 1
    simp

lemma tile_countP (W H bs i j : Nat) (hbs : 0 < bs) (hi : i < W) (hj : j < H) :
    (tileWindows W H bs).countP (fun w => w.containsPx i j) = 1 := by
  have hW : i / bs < (W + bs - 1) / bs := by
    rw [lt_ceilDiv_iff hbs]
    exact lt_of_le_of_lt (Nat.div_mul_le_self i bs) hi
  have hH : j / bs < (H + bs - 1) / bs := by
    rw [lt_ceilDiv_iff hbs]
    exact lt_of_le_of_lt (Nat.div_mul_le_self j bs) hj
  unfold tileWindows pyRange
  rw [map_flatMap', countP_flatMap']
  simp only [List.map_map, Function.comp_def, List.countP_map]
  have hterm : ∀ b ∈ List.range ((H + bs - 1) / bs),
      ((List.range ((W + bs - 1) / bs)).countP fun a =>
        Window.containsPx
          { colOff := a * bs, rowOff := b * bs,
            width := min bs (W - a * bs), height := min bs (H - b * bs) } i j)
      = if b = j / bs then 1 else 0 := by
    intro b _
    by_cases hbj : b = j / bs
    · subst hbj
      rw [if_pos rfl]
      have hcongr :
          ((List.range ((W + bs - 1) / bs)).countP fun a =>
            Window.containsPx
              { colOff := a * bs, rowOff := j / bs * bs,
                width := min bs (W - a * bs), height := min bs (H - j / bs * bs) } i j)
          = (List.range ((W + bs - 1) / bs)).countP fun a => decide (a = i / bs) := by
        apply List.countP_congr
        intro a _
        simp only [Window.containsPx, Bool.and_eq_true, decide_eq_true_eq]
        constructor
        · rintro ⟨⟨⟨hc1, hc2⟩, _⟩, _⟩
          exact (cell_iff hbs hi).1 ⟨hc1, hc2⟩
        · intro ha
          have hcol := (cell_iff hbs hi).2 ha
          have hrow := (cell_iff hbs hj).2 rfl
          exact ⟨⟨⟨hcol.1, hcol.2⟩, hrow.1⟩, hrow.2⟩
      rw [hcongr, countP_range_eq_one hW]
    · rw [if_neg hbj]
      rw [List.countP_eq_zero]
      intro a _
      intro hcontra
      simp only [Window.containsPx, Bool.and_eq_true, decide_eq_true_eq] at hcontra
      exact hbj ((cell_iff hbs hj).1 ⟨hcontra.1.2, hcontra.2⟩)
  rw [List.map_congr_left hterm, sum_map_ite_eq, countP_range_eq_one hH]

lemma mem_tileWindows_bounds {W H bs : Nat} (hbs : 0 < bs) {w : Window}
    (hw : w ∈ tileWindows W H bs) :
    w.colOff + w.width ≤ W ∧ w.rowOff + w.height ≤ H ∧ 0 < w.width ∧ 0 < w.height := by
  unfold tileWindows at hw
  simp only [List.mem_flatMap, List.mem_map] at hw
  obtain ⟨y, hy, x, hx, rfl⟩ := hw
  obtain ⟨_, _, hyH⟩ := (mem_pyRange hbs).1 hy
  obtain ⟨_, _, hxW⟩ := (mem_pyRange hbs).1 hx
  have h1 : min bs (W - x) ≤ W - x := Nat.min_le_right _ _
  have h2 : 0 < min bs (W - x) := lt_min hbs (by omega)
  have h3 : min bs (H - y) ≤ H - y := Nat.min_le_right _ _
  have h4 : 0 < min bs (H - y) := lt_min hbs (by omega)
  refine ⟨?_, ?_, h2, h4⟩ <;> simp only <;> omega

/-! Generic list-sum helpers used for MultiPolygon areas. -/

lemma sum_map_le_sum_map {α : Type} (l : List α) (f g : α → ℚ)
    (h : ∀ x ∈ l, f x ≤ g x) : (l.map f).sum ≤ (l.map g).sum := by
  induction l with
  | nil => simp
  | cons a l ih =>
    simp only [List.map_cons, List.sum_cons]
    exact add_le_add (h a (List.mem_cons_self a l))
      (ih fun x hx => h x (List.mem_cons_of_mem a hx))

lemma sum_map_lt_sum_map {α : Type} (l : List α) (f g : α → ℚ)
    (hle : ∀ x ∈ l, f x ≤ g x) (hlt : ∃ x ∈ l, f x < g x) :
    (l.map f).sum < (l.map g).sum := by
  induction l with
  | nil => obtain ⟨x, hx, _⟩ := hlt; exact absurd hx (List.not_mem_nil x)
  | cons a l ih =>
    simp only [List.map_cons, List.sum_cons]
    obtain ⟨x, hx, hxlt⟩ := hlt
    rcases List.mem_cons.1 hx with rfl | hx'
    · exact add_lt_add_of_lt_of_le hxlt
        (sum_map_le_sum_map l f g fun y hy => hle y (List.mem_cons_of_mem x hy))
    · exact add_lt_add_of_le_of_lt (hle a (List.mem_cons_self a l))
        (ih (fun y hy => hle y (List.mem_cons_of_mem a hy)) ⟨x, hx', hxlt⟩)

lemma exists_pos_of_sum_map_pos {α : Type} (l : List α) (f : α → ℚ)
    (hn : ∀ x ∈ l, 0 ≤ f x) (h : 0 < (l.map f).sum) : ∃ x ∈ l, 0 < f x := by
  induction l with
  | nil => simp at h
  | cons a l ih =>
    rcases lt_or_le 0 (f a) with ha | ha
    · exact ⟨a, List.mem_cons_self a l, ha⟩
    · simp only [List.map_cons, List.sum_cons] at h
      have hsum : 0 < (l.map f).sum := by linarith
      obtain ⟨x, hx, hxp⟩ := ih (fun x hx => hn x (List.mem_cons_of_mem a hx)) hsum
      exact ⟨x, List.mem_cons_of_mem a hx, hxp⟩

lemma sum_map_filter_pos_eq {α : Type} (l : List α) (f : α → ℚ)
    (hn : ∀ x ∈ l, 0 ≤ f x) :
    (((l.filter fun x => decide (0 < f x)).map f).sum) = (l.map f).sum := by
  induction l with
  | nil => rfl
  | cons a l ih =>
    have ih' := ih fun x hx => hn x (List.mem_cons_of_mem a hx)
    by_cases ha : 0 < f a
    · rw [List.filter_cons_of_pos (by simpa using ha), List.map_cons, List.sum_cons,
        List.map_cons, List.sum_cons, ih']
    · have ha0 : f a = 0 := le_antisymm (not_lt.1 ha) (hn a (List.mem_cons_self a l))
      rw [List.filter_cons_of_neg (by simpa using ha), List.map_cons, List.sum_cons,
        ha0, zero_add, ih']

lemma sum_map_filter_le {α : Type} (l : List α) (f : α → ℚ) (p : α → Bool)
    (hn : ∀ x ∈ l, 0 ≤ f x) :
    ((l.filter p).map f).sum ≤ (l.map f).sum := by
  induction l with
  | nil => simp
  | cons a l ih =>
    have ih' := ih fun x hx => hn x (List.mem_cons_of_mem a hx)
    by_cases ha : p a
    · rw [List.filter_cons_of_pos ha, List.map_cons, List.sum_cons,
        List.map_cons, List.sum_cons]
      exact add_le_add_left ih' _
    · rw [List.filter_cons_of_neg ha, List.map_cons, List.sum_cons]
      have := hn a (List.mem_cons_self a l)
      linarith

/-! Facts about the rectangle realization of the geometry engine.  They
discharge, at the rectangle instance, exactly the engine contracts that
the parametric theorems assume. -/

lemma max0_mul_le {a b a2 b2 : ℚ} (ha : a2 ≤ a) (hb : b2 ≤ b) :
    max 0 a2 * max 0 b2 ≤ max 0 a * max 0 b :=
  mul_le_mul (max_le_max le_rfl ha) (max_le_max le_rfl hb)
    (le_max_left _ _) (le_max_left _ _)

lemma max0_pos {a : ℚ} (h : 0 < max 0 a) : 0 < a := by
  by_contra hc
  push_neg at hc
  rw [max_eq_left hc] at h
  exact lt_irrefl 0 h

lemma mul_max0_pos {A B : ℚ} (h : 0 < max 0 A * max 0 B) : 0 < A ∧ 0 < B := by
  refine ⟨max0_pos ?_, max0_pos ?_⟩
  · by_contra hc
    push_neg at hc
    have h0 : max 0 A = 0 := le_antisymm hc (le_max_left _ _)
    rw [h0, zero_mul] at h
    exact lt_irrefl 0 h
  · by_contra hc
    push_neg at hc
    have h0 : max 0 B = 0 := le_antisymm hc (le_max_left _ _)
    rw [h0, mul_zero] at h
    exact lt_irrefl 0 h

lemma Rect.area_nonneg (r : Rect) : 0 ≤ r.area :=
  mul_nonneg (le_max_left _ _) (le_max_left _ _)

lemma Rect.offset_zero (r : Rect) : r.offset 0 = r := by
  cases r
  simp [Rect.offset]

lemma Rect.offset_neg_area_le (r : Rect) {d : ℚ} (hd : 0 ≤ d) :
    (r.offset (-d)).area ≤ r.area := by
  simp only [Rect.offset, Rect.area]
  exact max0_mul_le (by linarith) (by linarith)

lemma Rect.offset_neg_area_lt (r : Rect) {d : ℚ} (hd : 0 < d) (hpos : 0 < r.area) :
    (r.offset (-d)).area < r.area := by
  obtain ⟨ha, hb⟩ := mul_max0_pos hpos
  simp only [Rect.offset, Rect.area] at hpos ⊢
  rw [max_eq_right ha.le, max_eq_right hb.le]
  rcases le_or_lt (r.x1 + -d - (r.x0 - -d)) 0 with h1 | h1
  · rw [max_eq_left h1, zero_mul]
    exact mul_pos ha hb
  · rcases le_or_lt (r.y1 + -d - (r.y0 - -d)) 0 with h2 | h2
    · rw [max_eq_left h2, mul_zero]
      exact mul_pos ha hb
    · rw [max_eq_right h1.le, max_eq_right h2.le]
      nlinarith

lemma rect_area_nonneg : ∀ p : Rect, 0 ≤ rectOps.areaP p := Rect.area_nonneg

lemma rect_transform_area : ∀ s d g,
    geomArea rectOps (rectOps.transform s d g) = geomArea rectOps g :=
  fun _ _ _ => rfl

lemma rect_transform_valid : ∀ s d g,
    rectOps.isValid g = true → rectOps.isValid (rectOps.transform s d g) = true :=
  fun _ _ _ h => h

lemma rect_buffer_valid : ∀ (g : Geom Rect) (dist : ℚ),
    rectOps.isValid g = true → rectOps.isValid (rectOps.buffer g dist 8 false) = true := by
  intro g dist h
  cases g <;> simp_all [rectOps, geomMapRect]

lemma rect_buffer0_id : ∀ g : Geom Rect,
    rectOps.isValid g = true → rectOps.buffer0 g = g := by
  intro g h
  cases g <;> simp_all [rectOps]

lemma rect_buffer_zero_id : ∀ g : Geom Rect,
    rectOps.isValid g = true → rectOps.buffer g 0 8 false = g := by
  intro g h
  cases g with
  | poly r => simp [rectOps, geomMapRect, Rect.offset_zero]
  | multi rs =>
    simp only [rectOps, geomMapRect, Geom.multi.injEq]
    rw [List.map_congr_left fun r _ => Rect.offset_zero r]
    simp
  | other t => simp [rectOps] at h

lemma rect_buffer_neg_area_lt : ∀ (g : Geom Rect) (d : ℚ), 0 < d →
    0 < geomArea rectOps g →
    geomArea rectOps (rectOps.buffer g (-d) 8 false) < geomArea rectOps g := by
  intro g d hd hpos
  cases g with
  | poly r =>
    simp only [rectOps, geomMapRect, geomArea] at hpos ⊢
    exact Rect.offset_neg_area_lt r hd hpos
  | multi rs =>
    simp only [rectOps, geomMapRect, geomArea, List.map_map, Function.comp_def] at hpos ⊢
    obtain ⟨x, hx, hxp⟩ :=
      exists_pos_of_sum_map_pos rs Rect.area (fun x _ => Rect.area_nonneg x) hpos
    exact sum_map_lt_sum_map rs _ _
      (fun y _ => Rect.offset_neg_area_le y hd.le)
      ⟨x, hx, Rect.offset_neg_area_lt x hd hxp⟩
  | other t => simp [geomArea] at hpos

lemma rect_flatMap_area (gs : List (Geom Rect)) :
    ((gs.flatMap geomRectParts).map Rect.area).sum = (gs.map (geomArea rectOps)).sum := by
  induction gs with
  | nil => rfl
  | cons g gs ih =>
    rw [List.flatMap_cons, List.map_append, List.sum_append, ih,
      List.map_cons, List.sum_cons]
    congr 1
    cases g <;> simp [geomRectParts, geomArea, rectOps]

lemma rect_union_area : ∀ (gs : List (Geom Rect)) (u : Geom Rect),
    rectOps.unaryUnion gs = .ok u →
    geomArea rectOps u ≤ (gs.map (geomArea rectOps)).sum := by
  intro gs u h
  have hu : u = .multi (gs.flatMap geomRectParts) := by
    simpa [rectOps] using h.symm
  rw [hu]
  exact le_of_eq (rect_flatMap_area gs)

lemma map_poly_flatMap_parts (l : List Rect) :
    (l.map Geom.poly).flatMap geomRectParts = l := by
  induction l with
  | nil => rfl
  | cons r l ih => rw [List.map_cons, List.flatMap_cons, ih]; rfl

lemma rect_union_filter_area : ∀ qs : List Rect,
    rectOps.isValid (.multi qs) = true →
    (qs.filter fun p => decide (0 < rectOps.areaP p)) ≠ [] →
    ∃ u, rectOps.unaryUnion
        ((qs.filter fun p => decide (0 < rectOps.areaP p)).map Geom.poly) = .ok u ∧
      geomArea rectOps u =
        ((qs.filter fun p => decide (0 < rectOps.areaP p)).map rectOps.areaP).sum := by
  intro qs _ _
  refine ⟨_, rfl, ?_⟩
  simp only [geomArea, map_poly_flatMap_parts]

lemma rect_buffer0_polygonal : ∀ g : Geom Rect, isPolygonal (rectOps.buffer0 g) = true := by
  intro g
  cases g <;> rfl

lemma rect_union_polygonal : ∀ (gs : List (Geom Rect)) (u : Geom Rect),
    rectOps.unaryUnion gs = .ok u → isPolygonal u = true := by
  intro gs u h
  have hu : u = .multi (gs.flatMap geomRectParts) := by
    simpa [rectOps] using h.symm
  rw [hu]
  rfl

/-! Basic facts about Except sequencing and reprojection. -/

lemma except_ok_bind {ε α β : Type} (a : α) (f : α → Except ε β) :
    (Except.ok a : Except ε α).bind f = f a := rfl

lemma except_error_bind {ε α β : Type} (e : ε) (f : α → Except ε β) :
    (Except.error e : Except ε α).bind f = .error e := rfl

lemma reproject_refl {P : Type} (ops : GeomOps P) (g : Geom P) (s : CRSid) :
    reproject_geom ops g (some s) s = .ok g := by
  simp [reproject_geom]

lemma reproject_some_ok {P : Type} (ops : GeomOps P) (g : Geom P) (s d : CRSid) :
    reproject_geom ops g (some s) d =
      .ok (if s = d then g else ops.transform s d g) := by
  by_cases h : s = d <;> simp [reproject_geom, h]

lemma reproject_preserves {P : Type} (ops : GeomOps P)
    (hT : ∀ s d g, geomArea ops (ops.transform s d g) = geomArea ops g)
    (hTv : ∀ s d g, ops.isValid g = true → ops.isValid (ops.transform s d g) = true)
    (s d : CRSid) (h : Geom P) :
    ∃ hm, reproject_geom ops h (some s) d = .ok hm ∧
      geomArea ops hm = geomArea ops h ∧
      (ops.isValid h = true → ops.isValid hm = true) := by
  by_cases hsd : s = d
  · exact ⟨h, by simp [reproject_geom, hsd], rfl, fun hv => hv⟩
  · exact ⟨ops.transform s d h, by simp [reproject_geom, hsd], hT s d h, hTv s d h⟩

/-! How ensure_valid_geometry relates areas and geometry kinds. -/

lemma ensure_valid_area_le {P : Type} (ops : GeomOps P)
    (hA : ∀ p : P, 0 ≤ ops.areaP p)
    (hB0 : ∀ g, ops.isValid g = true → ops.buffer0 g = g)
    (hU : ∀ gs u, ops.unaryUnion gs = .ok u →
      geomArea ops u ≤ (gs.map (geomArea ops)).sum)
    (back res : Geom P) (hv : ops.isValid back = true)
    (h : ensure_valid_geometry ops back = .ok res) :
    geomArea ops res ≤ geomArea ops back := by
  cases back with
  | poly p =>
    by_cases hc : (ops.isValid (Geom.poly p) && decide (0 < ops.areaP p)) = true
    · simp only [ensure_valid_geometry] at h
      rw [if_pos hc] at h
      injection h with h2
      rw [← h2]
    · simp only [ensure_valid_geometry] at h
      rw [if_neg hc] at h
      injection h with h2
      rw [← h2, hB0 _ hv]
  | multi ps =>
    by_cases he : (ps.filter fun q => decide (0 < ops.areaP q)).isEmpty = true
    · simp only [ensure_valid_geometry] at h
      rw [if_pos he] at h
      exact absurd h (by simp)
    · simp only [ensure_valid_geometry] at h
      rw [if_neg he] at h
      have h1 := hU _ _ h
      rw [List.map_map] at h1
      have h2 : ((ps.filter fun q => decide (0 < ops.areaP q)).map (geomArea ops ∘ Geom.poly))
          = ((ps.filter fun q => decide (0 < ops.areaP q)).map ops.areaP) :=
        List.map_congr_left fun q _ => rfl
      rw [h2] at h1
      calc geomArea ops res ≤ _ := h1
        _ ≤ (ps.map ops.areaP).sum :=
            sum_map_filter_le ps ops.areaP _ (fun q _ => hA q)
        _ = geomArea ops (.multi ps) := rfl
  | other t =>
    simp [ensure_valid_geometry] at h

lemma ensure_valid_area_eq {P : Type} (ops : GeomOps P)
    (hA : ∀ p : P, 0 ≤ ops.areaP p)
    (hUeq : ∀ qs : List P, ops.isValid (.multi qs) = true →
      (qs.filter fun p => decide (0 < ops.areaP p)) ≠ [] →
      ∃ u, ops.unaryUnion
          ((qs.filter fun p => decide (0 < ops.areaP p)).map Geom.poly) = .ok u ∧
        geomArea ops u = ((qs.filter fun p => decide (0 < ops.areaP p)).map ops.areaP).sum)
    (back res : Geom P) (hv : ops.isValid back = true)
    (hpos : 0 < geomArea ops back)
    (h : ensure_valid_geometry ops back = .ok res) :
    geomArea ops res = geomArea ops back := by
  cases back with
  | poly p =>
    have hc : (ops.isValid (Geom.poly p) && decide (0 < ops.areaP p)) = true := by
      simp only [Bool.and_eq_true, decide_eq_true_eq]
      exact ⟨hv, hpos⟩
    simp only [ensure_valid_geometry] at h
    rw [if_pos hc] at h
    injection h with h2
    rw [← h2]
  | multi ps =>
    have hfne : (ps.filter fun q => decide (0 < ops.areaP q)) ≠ [] := by
      obtain ⟨q, hq, hqp⟩ := exists_pos_of_sum_map_pos ps ops.areaP (fun x _ => hA x) hpos
      intro h0
      have hqm : q ∈ ps.filter fun x => decide (0 < ops.areaP x) := by
        rw [List.mem_filter]
        exact ⟨hq, by simpa using hqp⟩
      rw [h0] at hqm
      exact List.not_mem_nil q hqm
    obtain ⟨u, hu, hua⟩ := hUeq ps hv hfne
    have hne : ¬ ((ps.filter fun q => decide (0 < ops.areaP q)).isEmpty = true) := by
      simpa [List.isEmpty_iff] using hfne
    simp only [ensure_valid_geometry] at h
    rw [if_neg hne, hu] at h
    injection h with h2
    rw [← h2, hua]
    exact sum_map_filter_pos_eq ps ops.areaP fun x _ => hA x
  | other t =>
    simp [ensure_valid_geometry] at h

lemma ensure_valid_polygonal {P : Type} (ops : GeomOps P)
    (hb0 : ∀ g : Geom P, isPolygonal (ops.buffer0 g) = true)
    (hu : ∀ (gs : List (Geom P)) (u : Geom P),
      ops.unaryUnion gs = .ok u → isPolygonal u = true)
    (g g2 : Geom P) (h : ensure_valid_geometry ops g = .ok g2) :
    isPolygonal g2 = true := by
  cases g with
  | poly p =>
    by_cases hc : (ops.isValid (Geom.poly p) && decide (0 < ops.areaP p)) = true
    · simp only [ensure_valid_geometry] at h
      rw [if_pos hc] at h
      injection h with h2
      rw [← h2]
      rfl
    · simp only [ensure_valid_geometry] at h
      rw [if_neg hc] at h
      injection h with h2
      rw [← h2]
      exact hb0 _
  | multi ps =>
    by_cases he : (ps.filter fun q => decide (0 < ops.areaP q)).isEmpty = true
    · simp only [ensure_valid_geometry] at h
      rw [if_pos he] at h
      exact absurd h (by simp)
    · simp only [ensure_valid_geometry] at h
      rw [if_neg he] at h
      exact hu _ _ h
  | other t =>
    simp [ensure_valid_geometry] at h

/-! Concrete evaluations on the rectangle engine, shared by the
instantiated theorems below. -/

lemma rect_unit_area_pos : (0 : ℚ) < rectOps.areaP ⟨0, 0, 1, 1⟩ := by
  norm_num [rectOps, Rect.area]

lemma rect_unit_ensure :
    ensure_valid_geometry rectOps (Geom.poly (⟨0, 0, 1, 1⟩ : Rect)) =
      .ok (Geom.poly (⟨0, 0, 1, 1⟩ : Rect)) := by
  have hv : rectOps.isValid (Geom.poly (⟨0, 0, 1, 1⟩ : Rect)) = true := rfl
  simp [ensure_valid_geometry, hv, rect_unit_area_pos]

lemma rect_unit_cutline :
    geom_to_geojson_path rectOps (Geom.poly (⟨0, 0, 1, 1⟩ : Rect))
        (CRSid.projected "EPSG:32721") = .ok (Geom.poly (⟨0, 0, 1, 1⟩ : Rect)) := by
  have h1 : reproject_geom rectOps (Geom.poly (⟨0, 0, 1, 1⟩ : Rect))
      (some (CRSid.projected "EPSG:32721")) EPSG4326 =
        .ok (Geom.poly (⟨0, 0, 1, 1⟩ : Rect)) := by
    simp [reproject_geom, EPSG4326, rectOps]
  unfold geom_to_geojson_path
  rw [h1, except_ok_bind, rect_unit_ensure, except_ok_bind]
  simp [isMultiG]

lemma utm_zone_minus_sixty_eq : utm_zone_from_lon (-60) = 21 := by
  norm_num [utm_zone_from_lon, pyInt]

/-! Claim theorems. -/

/-- C1: compute_negative_buffer performs exactly the specified metric
buffer computation: it reprojects the region into the selected metric
CRS, computes the buffer distance dist = (area * threshold) / 100 from
the area in that CRS, applies a negative buffer of that distance with
resolution 8 segments per quarter-circle and default non-single-sided
offsetting, reprojects the result back into the original CRS, and
repairs it before returning. -/
theorem compute_negative_buffer_matches_spec {P : Type} (ops : GeomOps P)
    (g : Geom P) (threshold : ℚ) (geomCrs : CRSid) :
    compute_negative_buffer ops g threshold geomCrs =
      spec_metric_buffer ops g threshold geomCrs := rfl

/-- C2: for every positive raster width, height and tile size, the
generated tile windows are a true partition of the raster grid: every
pixel lies in exactly one window, and every window is clipped to the
raster's true bounds (never padded past them) with positive extent. -/
theorem tile_windows_partition (W H bs : Nat) (_hW : 0 < W) (_hH : 0 < H)
    (hbs : 0 < bs) :
    (∀ i j, i < W → j < H →
      (tileWindows W H bs).countP (fun w => w.containsPx i j) = 1) ∧
    (∀ w ∈ tileWindows W H bs,
      w.colOff + w.width ≤ W ∧ w.rowOff + w.height ≤ H ∧
      0 < w.width ∧ 0 < w.height) :=
  ⟨fun i j hi hj => tile_countP W H bs i j hbs hi hj,
   fun _ hw => mem_tileWindows_bounds hbs hw⟩

/-- Witness for C2 at a 5 by 3 raster with tile size 2. -/
theorem tile_windows_partition_witness :
    (tileWindows 5 3 2).countP (fun w => w.containsPx 4 2) = 1 ∧
    (tileWindows 5 3 2).countP (fun w => w.containsPx 0 0) = 1 :=
  ⟨(tile_windows_partition 5 3 2 (by decide) (by decide) (by decide)).1 4 2
      (by decide) (by decide),
   (tile_windows_partition 5 3 2 (by decide) (by decide) (by decide)).1 0 0
      (by decide) (by decide)⟩

/-- C3 counterexample: for a region in a geographic CRS whose centroid
longitude is -60 degrees, the metric-CRS selection picks UTM zone 21,
not zone 18: int((-60 + 180) / 6) + 1 = 21, exactly as the documented
formula floor((longitude + 180) / 6) + 1 also gives. -/
theorem utm_zone_at_minus_sixty_not_18 :
    metric_crs_for rectOps (Geom.poly (⟨-61, -3, -59, -1⟩ : Rect))
        (CRSid.geographic "EPSG:4674") = CRSid.utm 21 ∧
    metric_crs_for rectOps (Geom.poly (⟨-61, -3, -59, -1⟩ : Rect))
        (CRSid.geographic "EPSG:4674") ≠ CRSid.utm 18 := by
  have hc : (rectOps.centroid (Geom.poly (⟨-61, -3, -59, -1⟩ : Rect))).1 = -60 := by
    norm_num [rectOps, Rect.centroidPt]
  constructor
  · simp [metric_crs_for, CRSid.isGeographic, hc, utm_zone_minus_sixty_eq]
  · simp [metric_crs_for, CRSid.isGeographic, hc, utm_zone_minus_sixty_eq]

/-- C3 amended: for a region in a geographic CRS whose centroid
longitude is -60 degrees, the metric-CRS selection, applying the
documented formula zone = floor((longitude + 180) / 6) + 1, selects UTM
zone 21 (not 18 as the specification's example states). -/
theorem utm_zone_at_minus_sixty {P : Type} (ops : GeomOps P) (g : Geom P)
    (crs : CRSid) (hgeo : crs.isGeographic = true)
    (hlon : (ops.centroid g).1 = -60) :
    metric_crs_for ops g crs = CRSid.utm 21 := by
  simp [metric_crs_for, hgeo, hlon, utm_zone_minus_sixty_eq]

/-- Witness for the amended C3 at a concrete rectangle centred on
longitude -60. -/
theorem utm_zone_at_minus_sixty_witness :
    metric_crs_for rectOps (Geom.poly (⟨-61, -3, -59, -1⟩ : Rect))
        (CRSid.geographic "EPSG:4674") = CRSid.utm 21 :=
  utm_zone_at_minus_sixty rectOps _ _ rfl (by norm_num [rectOps, Rect.centroidPt])

/-- C4 counterexample: with a cropping geometry whose cutline file is
written successfully, if gdal.Warp and the gdalwarp CLI fallback both
fail, the crop raises CalledProcessError and the temporary cutline file
is still present afterwards: deletion is skipped on this exit path. -/
theorem cutline_leaks_when_both_warps_fail :
    (crop_with_mask rectOps ⟨false, false⟩ (Geom.poly (⟨0, 0, 1, 1⟩ : Rect))
        (CRSid.projected "EPSG:32721")).2.cutlinePresent = true ∧
    (crop_with_mask rectOps ⟨false, false⟩ (Geom.poly (⟨0, 0, 1, 1⟩ : Rect))
        (CRSid.projected "EPSG:32721")).1 = .error .calledProcessError := by
  constructor
  · simp [crop_with_mask, rect_unit_cutline]
  · simp [crop_with_mask, rect_unit_cutline]

/-- C4 amended: the temporary cutline file is deleted after the warp
attempt on every exit path except the one where both the primary warp
call and the command-line fallback fail; on that double-failure path the
CalledProcessError propagates before the deletion statement runs and the
file is left behind. -/
theorem cutline_removed_iff_some_warp_succeeds {P : Type} (ops : GeomOps P)
    (env : WarpEnv) (g : Geom P) (crs : CRSid) (cut : Geom P)
    (hcut : geom_to_geojson_path ops g crs = .ok cut) :
    (crop_with_mask ops env g crs).2.cutlinePresent = false ↔
      (env.warpOk || env.cliOk) = true := by
  unfold crop_with_mask
  rw [hcut]
  cases env with
  | mk w c => cases w <;> cases c <;> simp

/-- Witness for the amended C4: with a successful primary warp the
cutline is removed. -/
theorem cutline_removed_iff_some_warp_succeeds_witness :
    ((crop_with_mask rectOps ⟨true, false⟩ (Geom.poly (⟨0, 0, 1, 1⟩ : Rect))
        (CRSid.projected "EPSG:32721")).2.cutlinePresent = false ↔
      (true || false) = true) :=
  cutline_removed_iff_some_warp_succeeds rectOps ⟨true, false⟩ _ _
    (Geom.poly (⟨0, 0, 1, 1⟩ : Rect)) rect_unit_cutline

/-- C7: when unary_union on the cleaned list succeeds its result is
returned, and when it raises, the merge step retries exactly once on the
buffer(0)-repaired list and returns that second call's result instead of
propagating the first exception. -/
theorem merge_retries_union_once {P : Type} (ops : GeomOps P)
    (cleaned : List (Geom P)) :
    (∀ m, ops.unaryUnion cleaned = .ok m → mergeCleaned ops cleaned = .ok m) ∧
    (∀ e, ops.unaryUnion cleaned = .error e →
      mergeCleaned ops cleaned = ops.unaryUnion (cleaned.map ops.buffer0)) := by
  constructor <;> intro x h <;> unfold mergeCleaned <;> rw [h]

/-- Witness for C7: the flaky engine fails on the raw list and the merge
step returns the result of the retried union on the repaired list. -/
theorem merge_retries_union_once_witness :
    flakyOps.unaryUnion [Geom.poly (⟨0, 0, 1, 1⟩ : Rect)] =
      .error (.runtimeError "TopologyException") ∧
    mergeCleaned flakyOps [Geom.poly (⟨0, 0, 1, 1⟩ : Rect)] =
      .ok (.other "union-after-repair") := by
  refine ⟨rfl, ?_⟩
  have h := (merge_retries_union_once flakyOps [Geom.poly (⟨0, 0, 1, 1⟩ : Rect)]).2
    (.runtimeError "TopologyException") rfl
  rw [h]
  rfl

/-- C9 counterexample: on a single-core machine the computed pool size
int(1 - 1 * 0.20) is 0, not at least 1. -/
theorem num_workers_single_core_zero :
    num_workers 1 = 0 ∧ ¬ (1 ≤ num_workers 1) := by
  have h : num_workers 1 = 0 := by
    norm_num [num_workers, pyInt]
  exact ⟨h, by rw [h]; norm_num⟩

/-- C9 amended: for every detected CPU core count n ≥ 2 the computed
worker-pool size int(n - n * 0.20) is at least 1; for n = 1 it is 0 (the
code has no minimum-1 clamp). -/
theorem num_workers_pos {n : Nat} (h : 2 ≤ n) : 1 ≤ num_workers n := by
  unfold num_workers pyInt
  have hn : (2 : ℚ) ≤ (n : ℚ) := by exact_mod_cast h
  have hq : (0 : ℚ) ≤ (n : ℚ) - (n : ℚ) * (20 / 100) := by linarith
  rw [if_neg (not_lt.2 hq), Int.le_floor]
  push_cast
  linarith

/-- Witness for the amended C9 at four cores. -/
theorem num_workers_pos_witness : 2 ≤ 4 ∧ 1 ≤ num_workers 4 :=
  ⟨by norm_num, num_workers_pos (by norm_num)⟩

/-- C10: ensure_valid_geometry never raises for a Polygon input: a valid
positive-area Polygon is returned unchanged, and any other Polygon is
returned as the zero-width buffer result (possibly empty) rather than
reported as an error; its explicit RuntimeError occurs exactly for a
MultiPolygon with no positive-area component (otherwise the filtered
components are handed to the engine union); and any other geometry type
is rejected with a TypeError. -/
theorem ensure_valid_geometry_cases {P : Type} (ops : GeomOps P) :
    (∀ p : P, ops.isValid (.poly p) = true → 0 < ops.areaP p →
      ensure_valid_geometry ops (.poly p) = .ok (.poly p)) ∧
    (∀ p : P, ¬ (ops.isValid (.poly p) = true ∧ 0 < ops.areaP p) →
      ensure_valid_geometry ops (.poly p) = .ok (ops.buffer0 (.poly p))) ∧
    (∀ ps : List P, (∀ q ∈ ps, ¬ 0 < ops.areaP q) →
      ensure_valid_geometry ops (.multi ps) =
        .error (.runtimeError "All polygons have zero area after cleanup.")) ∧
    (∀ ps : List P, (∃ q ∈ ps, 0 < ops.areaP q) →
      ensure_valid_geometry ops (.multi ps) =
        ops.unaryUnion ((ps.filter fun q => decide (0 < ops.areaP q)).map Geom.poly)) ∧
    (∀ t : String, ensure_valid_geometry ops (.other t) =
      .error (.typeError ("Unsupported geometry type: " ++ t))) := by
  refine ⟨?_, ?_, ?_, ?_, fun t => rfl⟩
  · intro p h1 h2
    have hc : (ops.isValid (Geom.poly p) && decide (0 < ops.areaP p)) = true := by
      simp only [Bool.and_eq_true, decide_eq_true_eq]
      exact ⟨h1, h2⟩
    simp only [ensure_valid_geometry]
    rw [if_pos hc]
  · intro p h
    have hc : ¬ ((ops.isValid (Geom.poly p) && decide (0 < ops.areaP p)) = true) := by
      simp only [Bool.and_eq_true, decide_eq_true_eq]
      exact h
    simp only [ensure_valid_geometry]
    rw [if_neg hc]
  · intro ps h
    have hf : (ps.filter fun q => decide (0 < ops.areaP q)) = [] := by
      rw [List.filter_eq_nil_iff]
      intro q hq
      simpa using h q hq
    simp [ensure_valid_geometry, hf]
  · intro ps h
    obtain ⟨q, hq, hqp⟩ := h
    have hf : (ps.filter fun x => decide (0 < ops.areaP x)) ≠ [] := by
      intro h0
      rw [List.filter_eq_nil_iff] at h0
      exact (h0 q hq) (by simpa using hqp)
    have hne : ¬ ((ps.filter fun x => decide (0 < ops.areaP x)).isEmpty = true) := by
      simpa [List.isEmpty_iff] using hf
    simp only [ensure_valid_geometry]
    rw [if_neg hne]

/-- Witness for C10: a valid positive-area square is returned
unchanged. -/
theorem ensure_valid_geometry_cases_witness :
    ensure_valid_geometry rectOps (Geom.poly (⟨0, 0, 2, 3⟩ : Rect)) =
      .ok (Geom.poly (⟨0, 0, 2, 3⟩ : Rect)) :=
  (ensure_valid_geometry_cases rectOps).1 _ rfl (by norm_num [rectOps, Rect.area])

/-- C8: before serializing the cutline the crop executor reprojects the
region into EPSG:4326 and reduces a MultiPolygon to its single
largest-area component, so — provided the engine's buffer(0) repair and
union return polygonal geometries, as GEOS does — the geometry written
into the single-feature boundary file is always a single Polygon. -/
theorem cutline_geometry_is_single_polygon {P : Type} (ops : GeomOps P)
    (hb0 : ∀ g : Geom P, isPolygonal (ops.buffer0 g) = true)
    (hu : ∀ (gs : List (Geom P)) (u : Geom P),
      ops.unaryUnion gs = .ok u → isPolygonal u = true)
    (g : Geom P) (crs : CRSid) (out : Geom P)
    (hout : geom_to_geojson_path ops g crs = .ok out) :
    ∃ p : P, out = Geom.poly p := by
  unfold geom_to_geojson_path at hout
  rw [reproject_some_ok, except_ok_bind] at hout
  set g1 := if crs = EPSG4326 then g else ops.transform crs EPSG4326 g with hg1
  cases h2 : ensure_valid_geometry ops g1 with
  | error e => rw [h2, except_error_bind] at hout; exact absurd hout (by simp)
  | ok g2 =>
    rw [h2, except_ok_bind] at hout
    have hpg2 := ensure_valid_polygonal ops hb0 hu g1 g2 h2
    cases g2 with
    | poly p =>
      rw [if_neg (by simp [isMultiG])] at hout
      injection hout with h3
      exact ⟨p, h3.symm⟩
    | multi ps =>
      rw [if_pos (by simp [isMultiG])] at hout
      cases ps with
      | nil => exact absurd hout (by simp [largest_polygon])
      | cons q qs =>
        unfold largest_polygon at hout
        injection hout with h3
        exact ⟨_, h3.symm⟩
    | other t => exact absurd hpg2 (by simp [isPolygonal])

/-- Witness for C8: a two-part MultiPolygon region is reduced to its
larger component, a single Polygon, in the cutline. -/
theorem cutline_geometry_is_single_polygon_witness :
    ∃ p : Rect,
      (Geom.poly (⟨5, 5, 6, 7⟩ : Rect) : Geom Rect) = Geom.poly p := by
  have hout : geom_to_geojson_path rectOps
      (Geom.multi [(⟨0, 0, 1, 1⟩ : Rect), ⟨5, 5, 6, 7⟩])
      (CRSid.projected "EPSG:32721") = .ok (Geom.poly (⟨5, 5, 6, 7⟩ : Rect)) := by
    have h1 : reproject_geom rectOps
        (Geom.multi [(⟨0, 0, 1, 1⟩ : Rect), ⟨5, 5, 6, 7⟩])
        (some (CRSid.projected "EPSG:32721")) EPSG4326 =
          .ok (Geom.multi [(⟨0, 0, 1, 1⟩ : Rect), ⟨5, 5, 6, 7⟩]) := by
      simp [reproject_geom, EPSG4326, rectOps]
    have hf : ([(⟨0, 0, 1, 1⟩ : Rect), ⟨5, 5, 6, 7⟩].filter
        fun q => decide (0 < rectOps.areaP q)) = [(⟨0, 0, 1, 1⟩ : Rect), ⟨5, 5, 6, 7⟩] := by
      norm_num [List.filter, rectOps, Rect.area]
    have hev : ensure_valid_geometry rectOps
        (Geom.multi [(⟨0, 0, 1, 1⟩ : Rect), ⟨5, 5, 6, 7⟩]) =
          .ok (Geom.multi [(⟨0, 0, 1, 1⟩ : Rect), ⟨5, 5, 6, 7⟩]) := by
      simp only [ensure_valid_geometry, hf]
      rfl
    have hlg : largest_polygon rectOps
        (Geom.multi [(⟨0, 0, 1, 1⟩ : Rect), ⟨5, 5, 6, 7⟩]) =
          .ok (Geom.poly (⟨5, 5, 6, 7⟩ : Rect)) := by
      have : rectOps.areaP ⟨0, 0, 1, 1⟩ < rectOps.areaP ⟨5, 5, 6, 7⟩ := by
        norm_num [rectOps, Rect.area]
      simp [largest_polygon, this]
    unfold geom_to_geojson_path
    rw [h1, except_ok_bind, hev, except_ok_bind, if_pos (by simp [isMultiG]), hlg]
  exact cutline_geometry_is_single_polygon rectOps rect_buffer0_polygonal
    rect_union_polygonal _ _ _ hout

/-- C5: the extraction-and-merge stage fails with the explicit "no
polygons" RuntimeError whenever the alpha band is entirely zero (every
tile short-circuits to an empty list), fails with the explicit "empty
after cleaning" RuntimeError whenever cleaning drops every extracted
polygon, and whenever it fails the full pipeline aborts with that error
and produces no output raster. -/
theorem extraction_failures_are_explicit {P : Type} (ops : GeomOps P)
    (meta : RasterMeta) :
    ((∀ x y, meta.alpha x y = 0) → ∀ bs,
      raster_to_polygon_parallel ops meta bs =
        .error (.runtimeError
          "No polygons extracted from raster (alpha mask may be empty).")) ∧
    (∀ bs, (extracted_polys ops meta bs).isEmpty = false →
      cleanPolys ops (extracted_polys ops meta bs) = [] →
      raster_to_polygon_parallel ops meta bs =
        .error (.runtimeError "Polygon list empty after cleaning.")) ∧
    (∀ e, raster_to_polygon_parallel ops meta 2048 = .error e →
      ∀ env t, (crop_mosaic_by_polygon ops meta env t).1 = .error e ∧
        (crop_mosaic_by_polygon ops meta env t).2.outputPresent = false) := by
  refine ⟨?_, ?_, ?_⟩
  · intro hzero bs
    have hext : extracted_polys ops meta bs = [] := by
      unfold extracted_polys
      rw [List.flatten_eq_nil_iff]
      intro l hl
      simp only [List.mem_map] at hl
      obtain ⟨w, _, rfl⟩ := hl
      have hnp : npAnyWindow meta.alpha w = false := by
        simp [npAnyWindow, hzero]
      simp [shapes_from_tile_alpha, hnp]
    simp [raster_to_polygon_parallel, hext]
  · intro bs hne hclean
    simp [raster_to_polygon_parallel, hne, hclean]
  · intro e herr env t
    have hp : pipeline_geometry ops meta t = .error e := by
      unfold pipeline_geometry
      rw [herr]
      rfl
    unfold crop_mosaic_by_polygon
    rw [hp]
    exact ⟨rfl, rfl⟩

/-- Witness for C5: a 5 by 3 raster whose alpha band is entirely zero
makes extraction raise the "no polygons" error and the pipeline writes
no output file. -/
theorem extraction_failures_are_explicit_witness :
    raster_to_polygon_parallel rectOps
        ⟨5, 3, CRSid.projected "EPSG:32721", fun _ _ => 0⟩ 2048 =
      .error (.runtimeError
        "No polygons extracted from raster (alpha mask may be empty).") ∧
    (crop_mosaic_by_polygon rectOps
        ⟨5, 3, CRSid.projected "EPSG:32721", fun _ _ => 0⟩ ⟨true, true⟩ 1).2.outputPresent
      = false := by
  have T := extraction_failures_are_explicit rectOps
    ⟨5, 3, CRSid.projected "EPSG:32721", fun _ _ => 0⟩
  have h1 := T.1 (fun _ _ => rfl) 2048
  exact ⟨h1, (T.2.2 _ h1 ⟨true, true⟩ 1).2⟩

/-- C6: under the geometry collaborator's contracts (nonnegative
component areas; area- and validity-preserving reprojection; negative
buffering strictly shrinks positive area and yields valid geometry;
buffer(0) and a zero-distance buffer are the identity on valid geometry;
union area is bounded by the component sum and exact on the cleaned
components of a valid MultiPolygon), compute_negative_buffer returns a
region of strictly smaller area than any valid positive-area input
region whenever threshold > 0; and for threshold 0 the buffer distance
is 0, the returned region has the same area as the input, and a valid
positive-area Polygon in a projected CRS is returned exactly
unchanged. -/
theorem negative_buffer_shrinks_area {P : Type} (ops : GeomOps P)
    (hA : ∀ p : P, 0 ≤ ops.areaP p)
    (hT : ∀ s d g, geomArea ops (ops.transform s d g) = geomArea ops g)
    (hTv : ∀ s d g, ops.isValid g = true → ops.isValid (ops.transform s d g) = true)
    (hBneg : ∀ (g : Geom P) (d : ℚ), 0 < d → 0 < geomArea ops g →
      geomArea ops (ops.buffer g (-d) 8 false) < geomArea ops g)
    (hBval : ∀ (g : Geom P) (d : ℚ), ops.isValid g = true →
      ops.isValid (ops.buffer g d 8 false) = true)
    (hB0 : ∀ g, ops.isValid g = true → ops.buffer0 g = g)
    (hBzero : ∀ g, ops.isValid g = true → ops.buffer g 0 8 false = g)
    (hU : ∀ gs u, ops.unaryUnion gs = .ok u →
      geomArea ops u ≤ (gs.map (geomArea ops)).sum)
    (hUeq : ∀ qs : List P, ops.isValid (.multi qs) = true →
      (qs.filter fun p => decide (0 < ops.areaP p)) ≠ [] →
      ∃ u, ops.unaryUnion
          ((qs.filter fun p => decide (0 < ops.areaP p)).map Geom.poly) = .ok u ∧
        geomArea ops u =
          ((qs.filter fun p => decide (0 < ops.areaP p)).map ops.areaP).sum)
    (g : Geom P) (crs : CRSid) (hval : ops.isValid g = true)
    (hpos : 0 < geomArea ops g) :
    (∀ t : ℚ, 0 < t → ∀ res, compute_negative_buffer ops g t crs = .ok res →
      geomArea ops res < geomArea ops g) ∧
    (∀ gm : Geom P, buffer_distance ops gm 0 = 0) ∧
    (∀ res, compute_negative_buffer ops g 0 crs = .ok res →
      geomArea ops res = geomArea ops g) ∧
    (∀ p : P, g = .poly p → crs.isGeographic = false →
      compute_negative_buffer ops g 0 crs = .ok g) := by
  refine ⟨?_, fun gm => by simp [buffer_distance], ?_, ?_⟩
  · intro t ht res hres
    obtain ⟨gm, hg1, hg1a, hg1v⟩ :=
      reproject_preserves ops hT hTv crs (metric_crs_for ops g crs) g
    have hgmv := hg1v hval
    have hgmpos : 0 < geomArea ops gm := by rw [hg1a]; exact hpos
    have hdistpos : 0 < buffer_distance ops gm t := by
      unfold buffer_distance
      exact div_pos (mul_pos hgmpos ht) (by norm_num)
    obtain ⟨back, hg2, hg2a, hg2v⟩ :=
      reproject_preserves ops hT hTv (metric_crs_for ops g crs) crs
        (ops.buffer gm (-(buffer_distance ops gm t)) 8 false)
    unfold compute_negative_buffer at hres
    rw [hg1, except_ok_bind, hg2, except_ok_bind] at hres
    have hbackv : ops.isValid back = true := hg2v (hBval gm _ hgmv)
    calc geomArea ops res
        ≤ geomArea ops back := ensure_valid_area_le ops hA hB0 hU back res hbackv hres
      _ = geomArea ops (ops.buffer gm (-(buffer_distance ops gm t)) 8 false) := hg2a
      _ < geomArea ops gm := hBneg gm _ hdistpos hgmpos
      _ = geomArea ops g := hg1a
  · intro res hres
    obtain ⟨gm, hg1, hg1a, hg1v⟩ :=
      reproject_preserves ops hT hTv crs (metric_crs_for ops g crs) g
    have hgmv := hg1v hval
    have hbufeq : ops.buffer gm (-(buffer_distance ops gm 0)) 8 false = gm := by
      have hd0 : buffer_distance ops gm 0 = 0 := by simp [buffer_distance]
      rw [hd0, neg_zero]
      exact hBzero gm hgmv
    obtain ⟨back, hg2, hg2a, hg2v⟩ :=
      reproject_preserves ops hT hTv (metric_crs_for ops g crs) crs gm
    unfold compute_negative_buffer at hres
    rw [hg1, except_ok_bind, hbufeq, hg2, except_ok_bind] at hres
    have hbackv : ops.isValid back = true := hg2v hgmv
    have hbackpos : 0 < geomArea ops back := by rw [hg2a, hg1a]; exact hpos
    rw [ensure_valid_area_eq ops hA hUeq back res hbackv hbackpos hres, hg2a, hg1a]
  · rintro p rfl hgeo
    have hm : metric_crs_for ops (Geom.poly p) crs = crs := by
      simp [metric_crs_for, hgeo]
    have hd0 : buffer_distance ops (Geom.poly p) 0 = 0 := by simp [buffer_distance]
    have hppos : 0 < ops.areaP p := hpos
    unfold compute_negative_buffer
    rw [hm, reproject_refl, except_ok_bind, hd0, neg_zero, hBzero _ hval,
      reproject_refl, except_ok_bind]
    simp [ensure_valid_geometry, hval, hppos]

/-- Witness for C6: a 10 by 10 square in a projected CRS shrinks to the
6 by 6 square of area 36 < 100 at threshold 3, and is returned unchanged
at threshold 0. -/
theorem negative_buffer_shrinks_area_witness :
    geomArea rectOps (Geom.poly (⟨3, 3, 7, 7⟩ : Rect)) <
      geomArea rectOps (Geom.poly (⟨0, 0, 10, 10⟩ : Rect)) ∧
    compute_negative_buffer rectOps (Geom.poly (⟨0, 0, 10, 10⟩ : Rect)) 0
        (CRSid.projected "EPSG:32721") = .ok (Geom.poly (⟨0, 0, 10, 10⟩ : Rect)) := by
  have T := negative_buffer_shrinks_area rectOps rect_area_nonneg rect_transform_area
    rect_transform_valid rect_buffer_neg_area_lt rect_buffer_valid rect_buffer0_id
    rect_buffer_zero_id rect_union_area rect_union_filter_area
    (Geom.poly (⟨0, 0, 10, 10⟩ : Rect)) (CRSid.projected "EPSG:32721") rfl
    (by norm_num [geomArea, rectOps, Rect.area])
  have hm : metric_crs_for rectOps (Geom.poly (⟨0, 0, 10, 10⟩ : Rect))
      (CRSid.projected "EPSG:32721") = CRSid.projected "EPSG:32721" := rfl
  have hd : buffer_distance rectOps (Geom.poly (⟨0, 0, 10, 10⟩ : Rect)) 3 = 3 := by
    norm_num [buffer_distance, geomArea, rectOps, Rect.area]
  have hb : rectOps.buffer (Geom.poly (⟨0, 0, 10, 10⟩ : Rect)) (-(3 : ℚ)) 8 false =
      Geom.poly (⟨3, 3, 7, 7⟩ : Rect) := by
    norm_num [rectOps, geomMapRect, Rect.offset]
  have hev : ensure_valid_geometry rectOps (Geom.poly (⟨3, 3, 7, 7⟩ : Rect)) =
      .ok (Geom.poly (⟨3, 3, 7, 7⟩ : Rect)) := by
    have hv : rectOps.isValid (Geom.poly (⟨3, 3, 7, 7⟩ : Rect)) = true := rfl
    have ha : (0 : ℚ) < rectOps.areaP ⟨3, 3, 7, 7⟩ := by norm_num [rectOps, Rect.area]
    simp [ensure_valid_geometry, hv, ha]
  have hc : compute_negative_buffer rectOps (Geom.poly (⟨0, 0, 10, 10⟩ : Rect)) 3
      (CRSid.projected "EPSG:32721") = .ok (Geom.poly (⟨3, 3, 7, 7⟩ : Rect)) := by
    unfold compute_negative_buffer
    rw [hm, reproject_refl, except_ok_bind, hd, hb, reproject_refl, except_ok_bind, hev]
  exact ⟨T.1 3 (by norm_num) _ hc, T.2.2.2 _ rfl rfl⟩

end MosaicUtils
